import Mathlib

/-!
Verification of the crawl-orchestration engine of a web-scraper browser
extension.  The development shallowly embeds the JavaScript sources
(`taskState.js`, `taskManager.js`, `urlManager.js`, the queue manager and the
page scraper) into Lean: JavaScript values are modelled by the inductive
`JSValue`, JavaScript numbers by `Option Int` (with `none` playing the role of
`NaN`; fractional values do not arise on the verified paths), Maps and Sets by
insertion-ordered association lists, and the cooperative single-threaded event
loop by explicit transition systems whose steps are the synchronous segments
of the source between `await` points.  Timers, status messages and the Chrome
tab APIs are not modelled; the helper `normalizeUrl` (WHATWG URL parsing) is
kept abstract and passed to the operations that use it, mirroring its role
as an external helper module.
-/

/-- Model of a JavaScript value as it can appear in task state, settings
objects and persisted snapshots.  `nan` is the NaN number, `arr`/`obj` are
arrays and plain objects. -/
inductive JSValue where
  | undefined
  | null
  | nan
  | bool (b : Bool)
  | num (n : Int)
  | str (s : String)
  | arr (xs : List JSValue)
  | obj (fields : List (String × JSValue))
  deriving Repr

mutual

/-- Structural equality on modelled JS values; agrees with JavaScript
SameValueZero on the primitive values that actually occur as Set members and
Map keys in the source. -/
def JSValue.beq : JSValue → JSValue → Bool
  | .undefined, .undefined => true
  | .null, .null => true
  | .nan, .nan => true
  | .bool a, .bool b => a == b
  | .num a, .num b => a == b
  | .str a, .str b => a == b
  | .arr xs, .arr ys => JSValue.beqList xs ys
  | .obj xs, .obj ys => JSValue.beqFields xs ys
  | _, _ => false

/-- Elementwise `JSValue.beq` on lists. -/
def JSValue.beqList : List JSValue → List JSValue → Bool
  | [], [] => true
  | x :: xs, y :: ys => JSValue.beq x y && JSValue.beqList xs ys
  | _, _ => false

/-- Fieldwise `JSValue.beq` on association lists. -/
def JSValue.beqFields : List (String × JSValue) → List (String × JSValue) → Bool
  | [], [] => true
  | (k1, v1) :: xs, (k2, v2) :: ys => k1 == k2 && JSValue.beq v1 v2 && JSValue.beqFields xs ys
  | _, _ => false

end

instance : BEq JSValue := ⟨JSValue.beq⟩

/-- JavaScript truthiness of a value. -/
def jsTruthy : JSValue → Bool
  | .undefined => false
  | .null => false
  | .nan => false
  | .bool b => b
  | .num n => n != 0
  | .str s => s != ""
  | .arr _ => true
  | .obj _ => true

/-- JavaScript `ToNumber` on the values reaching arithmetic in the embedded
code; `none` models `NaN`.  String coercion is modelled by integer-literal
parsing and object coercion by `NaN`; neither case is exercised by any
theorem below. -/
def jsToNumber : JSValue → Option Int
  | .undefined => none
  | .null => some 0
  | .nan => none
  | .bool b => some (if b then 1 else 0)
  | .num n => some n
  | .str s => s.toInt?
  | .arr _ => none
  | .obj _ => none

/-- Model of `v || d` followed by numeric coercion, as in
`settings.concurrency || CONFIG.DEFAULTS.CONCURRENCY` fed into `Math.min`. -/
def jsOrNumber (v : JSValue) (d : Int) : Option Int :=
  if jsTruthy v then jsToNumber v else some d

/-- Model of `Math.min(v, c)` for a possibly-NaN left argument. -/
def jsMinNum (v : Option Int) (c : Int) : Option Int := v.map (fun x => min x c)

/-- Model of `Math.max(v, c)` for a possibly-NaN left argument. -/
def jsMaxNum (v : Option Int) (c : Int) : Option Int := v.map (fun x => max x c)

/-- Model of the nullish coalescing `v ?? d`. -/
def jsNullish (v d : JSValue) : JSValue :=
  match v with
  | .undefined => d
  | .null => d
  | other => other

/-- Property read `v[k]` on a value the source guarantees is an object;
non-objects yield `undefined`. -/
def jsGetD : JSValue → String → JSValue
  | .obj fields, k => match (fields.find? (fun e => e.1 == k)).map (fun e => e.2) with
    | some v => v
    | none => .undefined
  | _, _ => .undefined

/-- Property read `v[k]` that throws a TypeError when `v` is `null` or
`undefined`, as in `data.settings.concurrency`. -/
def jsGet (v : JSValue) (k : String) : Except Unit JSValue :=
  match v with
  | .undefined => .error ()
  | .null => .error ()
  | other => .ok (jsGetD other k)

/-- Comparison `a >= b` where `b` is a possibly-NaN number; any comparison
with NaN is false. -/
def jsGeNum (a : Int) (b : Option Int) : Bool :=
  match b with
  | some m => a ≥ m
  | none => false

/-- Comparison `a < b` where `b` is a possibly-NaN number. -/
def jsLtNum (a : Int) (b : Option Int) : Bool :=
  match b with
  | some m => a < m
  | none => false

/-- Membership test of a JavaScript `Set`, insertion-ordered list model. -/
def jsSetHas (s : List JSValue) (v : JSValue) : Bool :=
  s.any (fun w => JSValue.beq w v)

/-- The `Set.add` operation: append unless already a member. -/
def jsSetAdd (s : List JSValue) (v : JSValue) : List JSValue :=
  if jsSetHas s v then s else s ++ [v]

/-- Key lookup in an insertion-ordered association list (JavaScript `Map`). -/
def alLookup {β : Type} (l : List (String × β)) (k : String) : Option β :=
  (l.find? (fun e => e.1 == k)).map (fun e => e.2)

/-- The `Map.set` operation: replace in place or append. -/
def alSet {β : Type} (l : List (String × β)) (k : String) (v : β) : List (String × β) :=
  if (l.find? (fun e => e.1 == k)).isSome then
    l.map (fun e => if e.1 == k then (k, v) else e)
  else l ++ [(k, v)]

/-- The `Map.delete` operation. -/
def alRemove {β : Type} (l : List (String × β)) (k : String) : List (String × β) :=
  l.filter (fun e => !(e.1 == k))

/-- String coercion used by template literals such as the storage key
`task_${taskId}`. -/
def jsToStr : JSValue → String
  | .undefined => "undefined"
  | .null => "null"
  | .nan => "NaN"
  | .bool b => if b then "true" else "false"
  | .num n => toString n
  | .str s => s
  | .arr _ => ""
  | .obj _ => ""

/-- The `normalizeUrl` helper applied to an arbitrary JS value: `new URL`
throws on the coerced form of the non-string values that occur here, so the
helper returns its argument unchanged for them. -/
def jsNormalize (normalizeUrl : String → String) : JSValue → JSValue
  | .str s => .str (normalizeUrl s)
  | other => other

/-- The `extractDomain` helper applied to an arbitrary JS value; on
non-strings `new URL` throws and the helper returns the empty string. -/
def jsDomain (extractDomain : String → String) : JSValue → String
  | .str s => extractDomain s
  | _ => ""

/-- Limit `CONFIG.LIMITS.MAX_PAGES` from `config.js`. -/
def CONFIG_LIMITS_MAX_PAGES : Int := 1000

/-- Limit `CONFIG.LIMITS.MAX_CONCURRENCY` from `config.js`. -/
def CONFIG_LIMITS_MAX_CONCURRENCY : Int := 15

/-- Limit `CONFIG.LIMITS.MIN_CONCURRENCY` from `config.js`. -/
def CONFIG_LIMITS_MIN_CONCURRENCY : Int := 1

/-- Limit `CONFIG.LIMITS.MIN_PAGES` from `config.js`. -/
def CONFIG_LIMITS_MIN_PAGES : Int := 1

/-- Default `CONFIG.DEFAULTS.CONCURRENCY` from `config.js`. -/
def CONFIG_DEFAULTS_CONCURRENCY : Int := 10

/-- Default `CONFIG.DEFAULTS.MAX_PAGES` from `config.js`. -/
def CONFIG_DEFAULTS_MAX_PAGES : Int := 1000

/-- Default `CONFIG.DEFAULTS.DELAY` from `config.js`. -/
def CONFIG_DEFAULTS_DELAY : Int := 0

/-- Storage key base `CONFIG.STORAGE_KEYS.TASK_PREFIX` from `config.js`. -/
def CONFIG_STORAGE_TASK_KEY : String := "task_"

/-- The clamped settings object built by the `TaskState` constructor.
Numeric fields are JS numbers (`none` = NaN); the three flags keep whatever
value `??` produced. -/
structure Settings where
  concurrency : Option Int
  maxPages : Option Int
  delay : Option Int
  crawlMode : JSValue
  copyToClipboard : JSValue
  downloadFile : JSValue
  deriving Repr

/-- State of one scraping task, from `taskState.js`.  Timer handles
(`saveDebounceTimer`, `saveInterval`), `pendingContent`, `tabIds` and the
wall-clock bookkeeping fields that only throttle status messages are not
modelled; `markChanged` is modelled by its effect on `hasUnsavedChanges`. -/
structure TaskState where
  taskId : JSValue
  startingUrl : JSValue
  startingDomain : String
  settings : Settings
  queue : List JSValue
  visited : List JSValue
  processed : Int
  inProgress : Int
  abort : Bool
  contentMap : List (String × JSValue)
  contentAccessOrder : List (String × Int)
  hasUnsavedChanges : Bool
  isFinishing : Bool
  isFinished : Bool
  isCompletionInProgress : Bool
  storageWarningIssued : Bool
  compressionEnabled : Bool
  progressivelySaved : List String
  deriving Repr

namespace TaskState

/-- The `TaskState` constructor.  `normalizeUrl` and `extractDomain` are the
imported URL helpers, kept abstract. -/
def create (normalizeUrl extractDomain : String → String)
    (taskId : JSValue) (startingUrl : JSValue) (settings : JSValue) : TaskState :=
  let normalizedStartingUrl := jsNormalize normalizeUrl startingUrl
  { taskId := taskId
    startingUrl := normalizedStartingUrl
    startingDomain := jsDomain extractDomain startingUrl
    settings :=
      { concurrency := jsMinNum (jsMaxNum (jsOrNumber (jsGetD settings "concurrency")
          CONFIG_DEFAULTS_CONCURRENCY) CONFIG_LIMITS_MIN_CONCURRENCY) CONFIG_LIMITS_MAX_CONCURRENCY
        maxPages := jsMinNum (jsMaxNum (jsOrNumber (jsGetD settings "maxPages")
          CONFIG_DEFAULTS_MAX_PAGES) CONFIG_LIMITS_MIN_PAGES) CONFIG_LIMITS_MAX_PAGES
        delay := jsMaxNum (jsOrNumber (jsGetD settings "delay") CONFIG_DEFAULTS_DELAY) 0
        crawlMode := jsNullish (jsGetD settings "crawlMode") (.bool true)
        copyToClipboard := jsNullish (jsGetD settings "copyToClipboard") (.bool false)
        downloadFile := jsNullish (jsGetD settings "downloadFile") (.bool true) }
    queue := [normalizedStartingUrl]
    visited := [normalizedStartingUrl]
    processed := 0
    inProgress := 0
    abort := false
    contentMap := []
    contentAccessOrder := []
    hasUnsavedChanges := false
    isFinishing := false
    isFinished := false
    isCompletionInProgress := false
    storageWarningIssued := false
    compressionEnabled := true
    progressivelySaved := [] }

/-- `TaskState.isComplete` from `taskState.js`. -/
def isComplete (t : TaskState) : Bool :=
  !t.isFinishing && !t.isFinished && t.inProgress == 0 &&
    (jsGeNum t.processed t.settings.maxPages || t.queue.length == 0)

/-- `TaskState.markAsFinishing`: the atomic check-and-set guarding task
completion, returning the new state and the claimed flag.  The re-validations
after setting `isCompletionInProgress` are kept even though no interleaving
can occur between them in the cooperative model. -/
def markAsFinishing (t : TaskState) : TaskState × Bool :=
  if t.isCompletionInProgress || t.isFinishing || t.isFinished then (t, false)
  else if t.inProgress > 0 then (t, false)
  else
    let maxPagesReached := jsGeNum t.processed t.settings.maxPages
    let queueEmpty := t.queue.length == 0
    if !maxPagesReached && !queueEmpty then (t, false)
    else if queueEmpty && t.processed == 0 then (t, false)
    else
      let t1 := { t with isCompletionInProgress := true }
      if t1.inProgress > 0 then ({ t1 with isCompletionInProgress := false }, false)
      else
        let finalMaxPagesReached := jsGeNum t1.processed t1.settings.maxPages
        let finalQueueEmpty := t1.queue.length == 0
        if !finalMaxPagesReached && !finalQueueEmpty then
          ({ t1 with isCompletionInProgress := false }, false)
        else ({ t1 with isFinishing := true }, true)

/-- `TaskState.markAsFinished` from `taskState.js`. -/
def markAsFinished (t : TaskState) : TaskState :=
  { t with isCompletionInProgress := false, isFinishing := false, isFinished := true }

/-- `TaskState.canSchedule` from `taskState.js` (the debug status message it
sends is not modelled). -/
def canSchedule (t : TaskState) : Bool :=
  !t.abort && jsLtNum t.inProgress t.settings.concurrency && t.queue.length > 0 &&
    jsLtNum (t.processed + t.inProgress) t.settings.maxPages

/-- `TaskState.hasActiveScraping` from `taskState.js`. -/
def hasActiveScraping (t : TaskState) : Bool := t.inProgress > 0

/-- `TaskState.markChanged`, modelled by its effect on the dirty flag. -/
def markChanged (t : TaskState) : TaskState := { t with hasUnsavedChanges := true }

/-- `TaskState.addToQueue` from `taskState.js`: reject while completing or
finished, then add the normalized URL to `visited` and `queue` unless already
visited.  The `Set.add`/`Array.push` pair appends since absence was checked. -/
def addToQueue (normalizeUrl : String → String) (t : TaskState) (url : JSValue) :
    TaskState × Bool :=
  if t.isCompletionInProgress || t.isFinishing || t.isFinished then (t, false)
  else
    let normalizedUrl := jsNormalize normalizeUrl url
    if !(jsSetHas t.visited normalizedUrl) then
      (markChanged { t with visited := t.visited ++ [normalizedUrl],
                            queue := t.queue ++ [normalizedUrl] }, true)
    else (t, false)

/-- `TaskState.getNextUrl` from `taskState.js`: `queue.shift() || null`, with
`markChanged` only when the shifted value is truthy. -/
def getNextUrl (t : TaskState) : TaskState × Option JSValue :=
  match t.queue with
  | [] => (t, none)
  | url :: rest =>
    if jsTruthy url then (markChanged { t with queue := rest }, some url)
    else ({ t with queue := rest }, none)

end TaskState

/-- The dispatch gate of the enhanced queue loop (`processEnhancedTaskQueue`):
`!task.abort && task.inProgress < task.settings.concurrency &&
task.processed + task.inProgress < task.settings.maxPages`. -/
def canProcess (t : TaskState) : Bool :=
  !t.abort && jsLtNum t.inProgress t.settings.concurrency &&
    jsLtNum (t.processed + t.inProgress) t.settings.maxPages

/-- One synchronous segment of the event loop acting on a task's state.
`dispatch` is the enhanced loop's gate check followed by
`scrapePageInternal`'s `inProgress++`; `dispatchLegacy` is the legacy loop's
`canSchedule`-gated `getNextUrl` plus the same increment; `completeFetch` is
the tail of `scrapePageInternal` (`processed++; inProgress--`); `setAbort`
is the abort assignment performed by `cleanupTask`/stop requests. -/
inductive TOp where
  | addToQueue (url : JSValue)
  | getNextUrl
  | markAsFinishing
  | markAsFinished
  | setAbort
  | dispatch
  | dispatchLegacy
  | completeFetch

/-- Applies one operation to the task state. -/
def stepTask (normalizeUrl : String → String) (t : TaskState) : TOp → TaskState
  | .addToQueue url => (TaskState.addToQueue normalizeUrl t url).1
  | .getNextUrl => (TaskState.getNextUrl t).1
  | .markAsFinishing => (TaskState.markAsFinishing t).1
  | .markAsFinished => TaskState.markAsFinished t
  | .setAbort => { t with abort := true }
  | .dispatch =>
    if canProcess t then TaskState.markChanged { t with inProgress := t.inProgress + 1 } else t
  | .dispatchLegacy =>
    if t.canSchedule then
      let t1 := (TaskState.getNextUrl t).1
      TaskState.markChanged { t1 with inProgress := t1.inProgress + 1 }
    else t
  | .completeFetch =>
    if t.inProgress > 0 then
      TaskState.markChanged { t with processed := t.processed + 1, inProgress := t.inProgress - 1 }
    else t

/-- Runs a sequence of operations from a starting state. -/
def runOps (normalizeUrl : String → String) (t : TaskState) (ops : List TOp) : TaskState :=
  ops.foldl (stepTask normalizeUrl) t

/-- Counts how many `markAsFinishing` invocations return `true` along a run. -/
def trueCount (normalizeUrl : String → String) : TaskState → List TOp → Nat
  | _, [] => 0
  | t, op :: rest =>
    match op with
    | .markAsFinishing =>
      let r := TaskState.markAsFinishing t
      (if r.2 then 1 else 0) + trueCount normalizeUrl r.1 rest
    | _ => trueCount normalizeUrl (stepTask normalizeUrl t op) rest

/-- Completion predicate exactly as the specification words it: requires
`!abort`, `inProgress == 0`, queue empty or page budget met, and excludes a
task with zero processed pages and an empty queue.  Stated only to be
compared against the source's `TaskState.isComplete`. -/
def isCompleteSpec (t : TaskState) : Bool :=
  !t.abort && t.inProgress == 0 &&
    (t.queue.length == 0 || jsGeNum t.processed t.settings.maxPages) &&
    !(t.processed == 0 && t.queue.length == 0)

/-- Checks that a settings field is a number (possibly NaN) or absent, the
domain over which the constructor's clamping is claimed. -/
def isNumericOrMissing : JSValue → Bool
  | .num _ => true
  | .nan => true
  | .undefined => true
  | _ => false

/-- Aborted task with one processed page and an exhausted queue. -/
def taskC4 : TaskState :=
  { TaskState.create (fun s => s) (fun s => s) (.num 1) (.str "https://example.com/a") (.obj [])
    with abort := true, queue := [], processed := 1 }

/-- Running task whose page budget (`maxPages = 1`) is already spent by
`processed = 1` while its queue still holds the starting URL. -/
def taskC5 : TaskState :=
  { TaskState.create (fun s => s) (fun s => s) (.num 1) (.str "https://example.com/a")
      (.obj [("maxPages", JSValue.num 1)])
    with processed := 1 }


/-- Completable task: one page processed, empty queue, nothing in flight. -/
def taskC2 : TaskState :=
  { TaskState.create (fun s => s) (fun s => s) (.num 1) (.str "https://example.com/a") (.obj [])
    with queue := [], processed := 1 }

/-- The page-budget invariant of the task counters: `maxPages` is a real
number and `processed + inProgress` stays within it. -/
def maxInv (t : TaskState) : Prop :=
  ∃ m, t.settings.maxPages = some m ∧ 0 ≤ t.inProgress ∧ t.processed + t.inProgress ≤ m

/-- Item held in a scheduler lane.  The lanes only ever inspect `url`; `meta`
stands for the rest of the queue item (metadata, enqueue time, retries). -/
structure QItem where
  url : String
  meta : Nat
  deriving Repr, DecidableEq

/-- The scheduler's three-lane priority queue from the queue manager. -/
structure PriorityQueue where
  high : List QItem
  normal : List QItem
  low : List QItem
  deriving Repr, DecidableEq

namespace PriorityQueue

/-- The freshly constructed queue. -/
def empty : PriorityQueue := ⟨[], [], []⟩

/-- `getQueue` from the queue manager: unknown priority names fall back to
the normal lane (the `default` switch case). -/
def getQueue (pq : PriorityQueue) (priority : String) : List QItem :=
  match priority with
  | "high" => pq.high
  | "low" => pq.low
  | _ => pq.normal

/-- Writes back the lane that `getQueue` selected (the source mutates the
lane array in place). -/
def setQueue (pq : PriorityQueue) (priority : String) (q : List QItem) : PriorityQueue :=
  match priority with
  | "high" => { pq with high := q }
  | "low" => { pq with low := q }
  | _ => { pq with normal := q }

/-- `PriorityQueue.enqueue`: push to the chosen lane unless an item with the
same url is already in that lane. -/
def enqueue (pq : PriorityQueue) (item : QItem) (priority : String) : PriorityQueue :=
  let q := getQueue pq priority
  if (q.find? (fun existingItem => existingItem.url == item.url)).isSome then pq
  else setQueue pq priority (q ++ [item])

/-- `PriorityQueue.dequeue`: drain `high` before `normal` before `low`. -/
def dequeue (pq : PriorityQueue) : Option QItem × PriorityQueue :=
  match pq.high with
  | x :: xs => (some x, { pq with high := xs })
  | [] =>
    match pq.normal with
    | y :: ys => (some y, { pq with normal := ys })
    | [] =>
      match pq.low with
      | z :: zs => (some z, { pq with low := zs })
      | [] => (none, pq)

end PriorityQueue

/-- Queue holding one item with a given url in its high lane. -/
def pqC7 : PriorityQueue :=
  PriorityQueue.enqueue PriorityQueue.empty ⟨"https://example.com/a", 0⟩ "high"

namespace SimpleCompressor

/-- Emits the output code for a finished phrase: a multi-character phrase
emits its dictionary code, a single character its char code.  A missing
dictionary code is JavaScript `undefined`, which `String.fromCharCode` maps
to the NUL unit; `String.fromCharCode` truncates to 16 bits. -/
def emit (dict : List (List Nat × Nat)) (phrase : List Nat) : Nat :=
  if phrase.length > 1 then
    match (dict.find? (fun e => e.1 == phrase)).map (fun e => e.2) with
    | some c => c % 65536
    | none => 0
  else (phrase.headD 0) % 65536

/-- Main loop of `SimpleCompressor.compress` over the remaining UTF-16 code
units.  `dict` maps phrases to codes, `code` is the next free code. -/
def compressLoop (dict : List (List Nat × Nat)) (code : Nat) (phrase : List Nat) :
    List Nat → List Nat → List Nat
  | [], out => out ++ [emit dict phrase]
  | currChar :: rest, out =>
    if (dict.find? (fun e => e.1 == phrase ++ [currChar])).isSome then
      compressLoop dict code (phrase ++ [currChar]) rest out
    else
      compressLoop ((phrase ++ [currChar], code) :: dict) (code + 1) [currChar] rest
        (out ++ [emit dict phrase])

/-- `SimpleCompressor.compress` from `taskState.js`, on JavaScript strings
viewed as lists of UTF-16 code units (`split('')`/`charCodeAt`). -/
def compress (str : List Nat) : List Nat :=
  match str with
  | [] => []
  | c0 :: rest => compressLoop [] 256 [c0] rest []

/-- Main loop of `SimpleCompressor.decompress`.  Codes below 256 are
literals; a known code looks up its phrase, an unknown code reconstructs
`oldPhrase + currChar` (the falsy-dictionary-entry ternary). -/
def decompressLoop (dict : List (Nat × List Nat)) (code : Nat) (currChar : Nat)
    (oldPhrase : List Nat) : List Nat → List (List Nat) → List (List Nat)
  | [], out => out
  | d :: rest, out =>
    let phrase :=
      if d < 256 then [d]
      else match (dict.find? (fun e => e.1 == d)).map (fun e => e.2) with
        | some p => p
        | none => oldPhrase ++ [currChar]
    decompressLoop ((code, oldPhrase ++ [phrase.headD 0]) :: dict) (code + 1)
      (phrase.headD 0) phrase rest (out ++ [phrase])

/-- `SimpleCompressor.decompress` from `taskState.js`. -/
def decompress (compressed : List Nat) : List Nat :=
  match compressed with
  | [] => []
  | c0 :: rest => (decompressLoop [] 256 c0 [c0] rest [[c0]]).flatten

end SimpleCompressor

/-- Cached response entry stored by `cacheResponse` (`{data, timestamp, url}`);
response payloads are modelled by opaque identifiers. -/
structure CacheEntry where
  data : Nat
  timestamp : Int
  url : String
  deriving Repr, DecidableEq

/-- Options accepted by the `URLManager` constructor; `none` models an absent
property handled by `??`. -/
structure URLMOptions where
  enableDeduplication : Option Bool
  enableCaching : Option Bool
  cacheTTL : Option Int
  maxCacheSize : Option Nat
  deriving Repr

/-- State of a `URLManager` instance: feature flags, configuration, the
in-flight promise map (promises modelled by identifiers), the LRU response
cache (front = least recently used) and the counters of `this.stats`. -/
structure URLMState where
  enableDeduplication : Bool
  enableCaching : Bool
  cacheTTL : Int
  maxCacheSize : Nat
  pendingRequests : List (String × Nat)
  responseCache : List (String × CacheEntry)
  statsTotal : Nat
  statsDeduplicated : Nat
  statsCacheHits : Nat
  statsCacheMisses : Nat
  deriving Repr

/-- `LRUCache.get`: a hit moves the entry to the most-recently-used end. -/
def lruGet (cache : List (String × CacheEntry)) (key : String) :
    Option CacheEntry × List (String × CacheEntry) :=
  match alLookup cache key with
  | some value => (some value, alRemove cache key ++ [(key, value)])
  | none => (none, cache)

/-- `LRUCache.set`: refresh an existing key, evicting the least recently used
entry when at capacity. -/
def lruSet (maxSize : Nat) (cache : List (String × CacheEntry)) (key : String)
    (value : CacheEntry) : List (String × CacheEntry) :=
  if (alLookup cache key).isSome then alRemove cache key ++ [(key, value)]
  else if cache.length ≥ maxSize then cache.drop 1 ++ [(key, value)]
  else cache ++ [(key, value)]

/-- What a `scrapeURL` call does in its synchronous segment: await an already
pending promise, return a cached response, or start a new fetch. -/
inductive ScrapeOutcome where
  | awaitPending (pid : Nat)
  | cacheHit (data : Nat)
  | fetchStarted (pid : Nat)
  deriving Repr, DecidableEq

namespace URLManager

/-- The `URLManager` constructor from `urlManager.js`. -/
def init (options : URLMOptions) : URLMState :=
  { enableDeduplication := options.enableDeduplication.getD true
    enableCaching := options.enableCaching.getD true
    cacheTTL := options.cacheTTL.getD (5 * 60 * 1000)
    maxCacheSize := options.maxCacheSize.getD 50
    pendingRequests := []
    responseCache := []
    statsTotal := 0
    statsDeduplicated := 0
    statsCacheHits := 0
    statsCacheMisses := 0 }

/-- `getCachedResponse`: an expired entry is deleted and reported as a
miss. -/
def getCachedResponse (s : URLMState) (url : String) (now : Int) :
    URLMState × Option CacheEntry :=
  match lruGet s.responseCache url with
  | (none, cache1) => ({ s with responseCache := cache1 }, none)
  | (some entry, cache1) =>
    if now - entry.timestamp > s.cacheTTL then
      ({ s with responseCache := alRemove cache1 url }, none)
    else ({ s with responseCache := cache1 }, some entry)

/-- `cacheResponse`: store a successful result with the current timestamp. -/
def cacheResponse (s : URLMState) (url : String) (data : Nat) (now : Int) : URLMState :=
  if !s.enableCaching then s
  else
    { s with responseCache := lruSet s.maxCacheSize s.responseCache url ⟨data, now, url⟩ }

/-- The synchronous prefix of `executeScrape`: `createScrapingPromise` runs
the fetch function up to its first await, then (dedup enabled) the promise is
registered in `pendingRequests` — one atomic event-loop segment. -/
def executeScrape (s : URLMState) (url : String) (pid : Nat) : URLMState × ScrapeOutcome :=
  if s.enableDeduplication then
    ({ s with pendingRequests := alSet s.pendingRequests url pid }, .fetchStarted pid)
  else (s, .fetchStarted pid)

/-- The synchronous prefix of `scrapeURL`: bump `totalRequests`, return the
pending promise when the url is in flight, else consult the cache, else start
the fetch via `executeScrape`. -/
def scrapeURL (s : URLMState) (url : String) (skipCache : Bool) (now : Int) (pid : Nat) :
    URLMState × ScrapeOutcome :=
  let s0 := { s with statsTotal := s.statsTotal + 1 }
  if !s0.enableDeduplication then executeScrape s0 url pid
  else
    match alLookup s0.pendingRequests url with
    | some pending =>
      ({ s0 with statsDeduplicated := s0.statsDeduplicated + 1 }, .awaitPending pending)
    | none =>
      if s0.enableCaching && !skipCache then
        match getCachedResponse s0 url now with
        | (s1, some cached) =>
          ({ s1 with statsCacheHits := s1.statsCacheHits + 1 }, .cacheHit cached.data)
        | (s1, none) => executeScrape { s1 with statsCacheMisses := s1.statsCacheMisses + 1 } url pid
      else executeScrape s0 url pid

/-- Settlement of the fetch promise: `createScrapingPromise` caches a truthy
fulfilment (`some data`), never a rejection, and the `finally` handler
registered under deduplication deletes the pending entry. -/
def settleFetch (s : URLMState) (url : String) (result : Option Nat) (now : Int) : URLMState :=
  let s1 := match result with
    | some data => if s.enableCaching then cacheResponse s url data now else s
    | none => s
  if s.enableDeduplication then { s1 with pendingRequests := alRemove s1.pendingRequests url }
  else s1

end URLManager

/-- One event of the dedup layer's life: a `scrapeURL` call arriving, or an
in-flight fetch settling. -/
inductive UEvent where
  | resolve (url : String) (skipCache : Bool) (now : Int) (pid : Nat)
  | settle (url : String) (result : Option Nat) (now : Int)

/-- A `URLManager` state together with the multiset of urls whose fetch
function invocation is currently outstanding. -/
structure URLMTrace where
  um : URLMState
  outstanding : List String
  deriving Repr

/-- Applies one event: a resolve call runs `scrapeURL`, and only a
`fetchStarted` outcome adds an outstanding fetch; a settle event for an
outstanding url runs the promise continuation and retires it. -/
def ustep (ts : URLMTrace) (e : UEvent) : URLMTrace :=
  match e with
  | .resolve url skipCache now pid =>
    let r := URLManager.scrapeURL ts.um url skipCache now pid
    { um := r.1
      outstanding := match r.2 with
        | .fetchStarted _ => url :: ts.outstanding
        | _ => ts.outstanding }
  | .settle url result now =>
    if url ∈ ts.outstanding then
      { um := URLManager.settleFetch ts.um url result now
        outstanding := ts.outstanding.erase url }
    else ts

/-- Runs a sequence of dedup-layer events. -/
def runUEvents (ts : URLMTrace) (events : List UEvent) : URLMTrace :=
  events.foldl ustep ts

/-- A freshly constructed `URLManager` with no outstanding fetches. -/
def initTrace (options : URLMOptions) : URLMTrace :=
  { um := URLManager.init options, outstanding := [] }

/-- Dedup-layer invariant: deduplication is on, no url has two outstanding
fetches, and a url is in `pendingRequests` exactly while its fetch is
outstanding. -/
def dedupInv (ts : URLMTrace) : Prop :=
  ts.um.enableDeduplication = true
  ∧ ts.outstanding.Nodup
  ∧ ∀ url, (alLookup ts.um.pendingRequests url).isSome = true ↔ url ∈ ts.outstanding

/-- Default `URLManager` options (everything absent). -/
def c1opts : URLMOptions := ⟨none, none, none, none⟩

/-- A single resolve call on a fresh url, leaving its fetch in flight. -/
def c1events : List UEvent := [UEvent.resolve "https://example.com/a" false 0 7]

/-- Serialization options of `TaskState.toJSON`. -/
structure SaveOptions where
  limitContent : Bool := false
  maxContentItems : Option Int := none
  deriving Repr

/-- The plain object `TaskState.toJSON` returns for storage. -/
structure TaskSnapshot where
  taskId : JSValue
  startingUrl : JSValue
  startingDomain : String
  settings : Settings
  queue : List JSValue
  visited : List JSValue
  processed : Int
  contentMap : List (String × JSValue)
  contentAccessOrder : List (String × Int)
  compressionEnabled : Bool
  progressivelySaved : List String
  deriving Repr

/-- Stable insertion of an element in front of the first entry it does not
compare below. -/
def insertLe {α : Type} (le : α → α → Bool) (x : α) : List α → List α
  | [] => [x]
  | y :: ys => if le x y then x :: y :: ys else y :: insertLe le x ys

/-- Stable sort with respect to `le`.  `Array.prototype.sort` is stable per
the ECMAScript specification, and for the total preorder comparators used
here every stable sort produces the same list, so insertion sort is a
faithful model. -/
def stableSortLe {α : Type} (le : α → α → Bool) : List α → List α
  | [] => []
  | x :: xs => insertLe le x (stableSortLe le xs)

/-- The most-recently-touched urls: `contentAccessOrder` entries sorted by
`(a, b) => b[1] - a[1]` (descending access time, ties in insertion order),
truncated to `n`, keys only. -/
def topAccessedUrls (t : TaskState) (n : Nat) : List String :=
  ((stableSortLe (fun a b => b.2 ≤ a.2) t.contentAccessOrder).take n).map Prod.fst

/-- `TaskState.toJSON` from `taskState.js`.  Under `limitContent` the content
entries are filtered to the most-recently-touched urls, and
`contentAccessOrder` is truncated by `slice(0, maxContentItems)` on its
unsorted entries (`slice(0, null)` being empty when `maxContentItems` is
null). -/
def TaskState.toJSON (t : TaskState) (options : SaveOptions) : TaskSnapshot :=
  let contentEntries :=
    if options.limitContent && options.maxContentItems.isSome then
      let sortedUrls := topAccessedUrls t (options.maxContentItems.getD 0).toNat
      t.contentMap.filter (fun e => sortedUrls.contains e.1)
    else t.contentMap
  { taskId := t.taskId
    startingUrl := t.startingUrl
    startingDomain := t.startingDomain
    settings := t.settings
    queue := t.queue
    visited := t.visited
    processed := t.processed
    contentMap := contentEntries
    contentAccessOrder :=
      if options.limitContent then t.contentAccessOrder.take (options.maxContentItems.getD 0).toNat
      else t.contentAccessOrder
    compressionEnabled := t.compressionEnabled
    progressivelySaved := t.progressivelySaved }

/-- Result of one `saveTaskState` call: the task as the call leaves it, and
the key/value pair handed to `storage('set', ...)`. -/
structure SaveResult where
  task : TaskState
  key : String
  data : TaskSnapshot
  deriving Repr

/-- `TaskManager.saveTaskState` on its successful path, with the storage
usage percentage (an integer, `Math.round` in `getStorageUsage`) supplied by
the quota check.  Above 80% the snapshot is capped to
`Math.max(50, Math.floor((100 - percentage) * 5))` content entries — exact
integer arithmetic, so the floor is the product itself — and the one-time
storage warning flag is raised; the task is otherwise untouched. -/
def TaskManager.saveTaskState (t : TaskState) (percentage : Int) : SaveResult :=
  if percentage > 80 then
    let maxItems := max 50 ((100 - percentage) * 5)
    let t1 := if !t.storageWarningIssued then { t with storageWarningIssued := true } else t
    { task := t1
      key := CONFIG_STORAGE_TASK_KEY ++ jsToStr t.taskId
      data := TaskState.toJSON t { limitContent := true, maxContentItems := some maxItems } }
  else
    { task := t
      key := CONFIG_STORAGE_TASK_KEY ++ jsToStr t.taskId
      data := TaskState.toJSON t {} }

/-- Task holding two content entries with distinct access times. -/
def taskC8 : TaskState :=
  { TaskState.create (fun s => s) (fun s => s) (.num 1) (.str "https://example.com/a") (.obj [])
    with contentMap := [("https://example.com/a", .str "c1"), ("https://example.com/b", .str "c2")],
         contentAccessOrder := [("https://example.com/a", 10), ("https://example.com/b", 20)] }

/-- Check `typeof v === 'number'` (NaN is a number). -/
def jsIsNumber : JSValue → Bool
  | .num _ => true
  | .nan => true
  | _ => false

/-- Check `typeof v === 'string'`. -/
def jsIsString : JSValue → Bool
  | .str _ => true
  | _ => false

/-- Check `typeof v === 'boolean'`. -/
def jsIsBool : JSValue → Bool
  | .bool _ => true
  | _ => false

/-- Check `typeof v === 'object'` on a truthy value (arrays included). -/
def jsIsObjectLike : JSValue → Bool
  | .obj _ => true
  | .arr _ => true
  | _ => false

/-- Check `Array.isArray(v)`. -/
def jsIsArray : JSValue → Bool
  | .arr _ => true
  | _ => false

/-- JavaScript `parseInt` on the values reaching it here; non-numeric
arguments give NaN (string parsing approximated by integer literals). -/
def jsParseInt : JSValue → Option Int
  | .num n => some n
  | .str s => s.toInt?
  | _ => none

/-- Packs a possibly-NaN arithmetic result back into a JS value. -/
def numOrNaN : Option Int → JSValue
  | some n => .num n
  | none => .nan

/-- `TaskState.validateTaskData` from `taskState.js`, guard by guard. -/
def TaskState.validateTaskData (data : JSValue) : Bool :=
  if !(jsTruthy data && jsIsObjectLike data) then false
  else if !(jsIsNumber (jsGetD data "taskId") || jsIsString (jsGetD data "taskId")) then false
  else if !(jsIsString (jsGetD data "startingUrl")) then false
  else if !(jsTruthy (jsGetD data "settings") && jsIsObjectLike (jsGetD data "settings")) then
    false
  else if jsTruthy (jsGetD data "queue") && !(jsIsArray (jsGetD data "queue")) then false
  else if jsTruthy (jsGetD data "visited") && !(jsIsArray (jsGetD data "visited")) then false
  else if jsTruthy (jsGetD data "processed") && !(jsIsNumber (jsGetD data "processed")) then
    false
  else if jsTruthy (jsGetD data "contentMap") && !(jsIsArray (jsGetD data "contentMap")) then
    false
  else if !(jsGetD (jsGetD data "settings") "concurrency" == JSValue.undefined)
      && !(jsIsNumber (jsGetD (jsGetD data "settings") "concurrency")) then false
  else if !(jsGetD (jsGetD data "settings") "maxPages" == JSValue.undefined)
      && !(jsIsNumber (jsGetD (jsGetD data "settings") "maxPages")) then false
  else if !(jsGetD (jsGetD data "settings") "delay" == JSValue.undefined)
      && !(jsIsNumber (jsGetD (jsGetD data "settings") "delay")) then false
  else if !(jsGetD (jsGetD data "settings") "crawlMode" == JSValue.undefined)
      && !(jsIsBool (jsGetD (jsGetD data "settings") "crawlMode")) then false
  else true

/-- `TaskState.sanitizeTaskData` from `taskState.js`.  Property reads on
`data` and `data.settings` throw a TypeError (here `Except.error`) when the
receiver is null or undefined — the throw the source's caller catches. -/
def TaskState.sanitizeTaskData (data : JSValue) : Except Unit JSValue := do
  let taskId ← jsGet data "taskId"
  let startingUrl ← jsGet data "startingUrl"
  let settings ← jsGet data "settings"
  let conc ← jsGet settings "concurrency"
  let maxPages ← jsGet settings "maxPages"
  let delay ← jsGet settings "delay"
  let crawlMode ← jsGet settings "crawlMode"
  let copyToClipboard ← jsGet settings "copyToClipboard"
  let downloadFile ← jsGet settings "downloadFile"
  let queue ← jsGet data "queue"
  let visited ← jsGet data "visited"
  let processed ← jsGet data "processed"
  let contentMap ← jsGet data "contentMap"
  return .obj
    [ ("taskId", taskId)
    , ("startingUrl", startingUrl)
    , ("settings", .obj
        [ ("concurrency", numOrNaN (jsMaxNum (jsMinNum
            (if jsTruthy conc then jsToNumber conc else some CONFIG_DEFAULTS_CONCURRENCY)
            CONFIG_LIMITS_MAX_CONCURRENCY) 1))
        , ("maxPages", numOrNaN (jsMaxNum (jsMinNum
            (if jsTruthy maxPages then jsToNumber maxPages else some CONFIG_DEFAULTS_MAX_PAGES)
            CONFIG_LIMITS_MAX_PAGES) 1))
        , ("delay", numOrNaN (jsMaxNum
            (if jsTruthy delay then jsToNumber delay else some CONFIG_DEFAULTS_DELAY) 0))
        , ("crawlMode", .bool (jsTruthy (jsNullish crawlMode (.bool true))))
        , ("copyToClipboard", .bool (jsTruthy (jsNullish copyToClipboard (.bool false))))
        , ("downloadFile", .bool (jsTruthy (jsNullish downloadFile (.bool true)))) ])
    , ("queue", match queue with
        | .arr xs => .arr (xs.filter jsIsString)
        | _ => .arr [])
    , ("visited", match visited with
        | .arr xs => .arr (xs.filter jsIsString)
        | _ => .arr [])
    , ("processed", numOrNaN (jsMaxNum (jsMinNum
        (if jsTruthy processed then jsToNumber processed else some 0)
        CONFIG_LIMITS_MAX_PAGES) 0))
    , ("contentMap", match contentMap with
        | .arr xs => .arr (xs.filter (fun entry =>
            match entry with
            | .arr pair => pair.length == 2 && jsIsString (pair.getD 0 .undefined)
            | _ => false))
        | _ => .arr []) ]

/-- Restore of `contentAccessOrder` via `new Map(entries)`.  A non-iterable
entry (number, boolean, null, plain object) makes the Map constructor throw;
array pairs are taken as key/value, iterable strings contribute nothing to
the string-to-number typed model. -/
def restoreAccessOrder (entries : List JSValue) : Except Unit (List (String × Int)) :=
  entries.foldlM
    (fun acc entry =>
      match entry with
      | .arr pair =>
        pure (match pair.getD 0 .undefined, pair.getD 1 .undefined with
          | .str k, .num v => alSet acc k v
          | _, _ => acc)
      | .str _ => pure acc
      | _ => .error ())
    []

/-- Body of `TaskState.fromJSON` inside its try block: validate or sanitize,
build the task through the constructor, then restore the collections.  Queue
entries are restored verbatim, `visited` through Set deduplication,
`contentMap` keeping only well-formed `[string, truthy]` pairs, and
`progressivelySaved` keeping the strings the typed model can hold. -/
def TaskState.fromJSONE (normalizeUrl extractDomain : String → String) (now : Int)
    (data : JSValue) : Except Unit (Option TaskState) := do
  let validatedData ←
    if TaskState.validateTaskData data then pure data
    else
      match TaskState.sanitizeTaskData data with
      | .ok sanitized => pure sanitized
      | .error _ => return none
  let task := TaskState.create normalizeUrl extractDomain (jsGetD validatedData "taskId")
      (jsGetD validatedData "startingUrl") (jsGetD validatedData "settings")
  let task := { task with
    queue := match jsGetD validatedData "queue" with
      | .arr xs => xs
      | _ => []
    visited := match jsGetD validatedData "visited" with
      | .arr xs => xs.foldl jsSetAdd []
      | _ => []
    processed := max 0 ((jsParseInt (jsGetD validatedData "processed")).getD 0) }
  let task :=
    if jsIsArray (jsGetD validatedData "contentMap") then
      let entries := match jsGetD validatedData "contentMap" with
        | .arr entries => entries
        | _ => []
      let restored := entries.foldl
        (fun acc entry =>
          match entry with
          | .arr pair =>
            if pair.length == 2 then
              match pair.getD 0 .undefined with
              | .str url =>
                if jsTruthy (pair.getD 1 .undefined) then
                  alSet acc url (pair.getD 1 .undefined)
                else acc
              | _ => acc
            else acc
          | _ => acc)
        []
      { task with contentMap := restored }
    else task
  let contentAccessOrder ←
    match jsGetD validatedData "contentAccessOrder" with
    | .arr entries => restoreAccessOrder entries
    | _ => pure (task.contentMap.map (fun e => (e.1, now)))
  return some { task with
    contentAccessOrder := contentAccessOrder
    compressionEnabled := !(jsGetD validatedData "compressionEnabled" == JSValue.bool false)
    progressivelySaved := match jsGetD validatedData "progressivelySaved" with
      | .arr xs => xs.foldl (fun acc v =>
          match v with
          | .str s => if acc.contains s then acc else acc ++ [s]
          | _ => acc) []
      | _ => [] }

/-- `TaskState.fromJSON` from `taskState.js`: the surrounding try/catch turns
any internal throw into null. -/
def TaskState.fromJSON (normalizeUrl extractDomain : String → String) (now : Int)
    (data : JSValue) : Option TaskState :=
  match TaskState.fromJSONE normalizeUrl extractDomain now data with
  | .ok r => r
  | .error _ => none

/-- `TaskManager.loadTaskState` over a fault-free key/value store: read the
task's key, skip a falsy stored value, and on a failed restore remove the
corrupted entry; always returns the store as left behind plus the result,
and never throws. -/
def TaskManager.loadTaskState (normalizeUrl extractDomain : String → String) (now : Int)
    (store : List (String × JSValue)) (taskId : JSValue) :
    List (String × JSValue) × Option TaskState :=
  let key := CONFIG_STORAGE_TASK_KEY ++ jsToStr taskId
  let stored := (alLookup store key).getD .undefined
  if jsTruthy stored then
    match TaskState.fromJSON normalizeUrl extractDomain now stored with
    | none => (alRemove store key, none)
    | some task => (store, some task)
  else (store, none)

/-- Clamping `Math.min(Math.max(v || d, lo), hi)` of a numeric-or-missing
settings field always produces a number in `[lo, hi]`. -/
theorem clampBounds (v : JSValue) (hv : isNumericOrMissing v = true) (d lo hi : Int)
    (h : lo ≤ hi) :
    ∃ x, jsMinNum (jsMaxNum (jsOrNumber v d) lo) hi = some x ∧ lo ≤ x ∧ x ≤ hi := by
  cases v <;> simp [isNumericOrMissing] at hv
  case undefined => simp [jsOrNumber, jsTruthy, jsToNumber, jsMinNum, jsMaxNum]; omega
  case nan => simp [jsOrNumber, jsTruthy, jsToNumber, jsMinNum, jsMaxNum]; omega
  case num n =>
    by_cases hn : n = 0 <;> simp [jsOrNumber, jsTruthy, jsToNumber, jsMinNum, jsMaxNum, hn] <;>
      omega

/-- Lower bound `Math.max(v || d, 0)` of a numeric-or-missing field. -/
theorem clampLowerBound (v : JSValue) (hv : isNumericOrMissing v = true) (d : Int) :
    ∃ x, jsMaxNum (jsOrNumber v d) 0 = some x ∧ 0 ≤ x := by
  cases v <;> simp [isNumericOrMissing] at hv
  case undefined => simp [jsOrNumber, jsTruthy, jsToNumber, jsMaxNum]
  case nan => simp [jsOrNumber, jsTruthy, jsToNumber, jsMaxNum]
  case num n =>
    by_cases hn : n = 0 <;> simp [jsOrNumber, jsTruthy, jsToNumber, jsMaxNum, hn] <;> omega

/-- C4, counterexample: an aborted task with one processed page, an empty
queue and no in-flight fetch.  The source's `isComplete` returns true on it,
while the claimed predicate (which consults `abort` and excludes
zero-processed empty-queue tasks) returns false — so `isComplete` is not the
claimed predicate. -/
theorem claim_C4_counterexample :
    TaskState.isComplete taskC4 = true ∧ isCompleteSpec taskC4 = false := ⟨rfl, rfl⟩

/-- C4, amended: `isComplete()` returns true iff the task is neither
finishing nor finished, `inProgress == 0`, and the page budget is met or the
queue is empty; the `abort` flag is not consulted (flipping it never changes
the result) and there is no zero-processed caveat — that caveat lives in
`markAsFinishing`. -/
theorem claim_C4 (t : TaskState) (b : Bool) :
    (TaskState.isComplete t = true ↔
      t.isFinishing = false ∧ t.isFinished = false ∧ t.inProgress = 0 ∧
        (jsGeNum t.processed t.settings.maxPages = true ∨ t.queue = []))
    ∧ TaskState.isComplete { t with abort := b } = TaskState.isComplete t := by
  constructor
  · simp [TaskState.isComplete, Bool.and_eq_true, Bool.or_eq_true, Bool.not_eq_true',
      List.length_eq_zero]
    tauto
  · rfl

/-- C5, counterexample: a task whose page budget (`maxPages = 1`) is already
exhausted (`processed + queue.length = 2 ≥ 1`) still accepts a fresh URL —
`addToQueue` returns true and grows the queue, so the claimed
`processed + queue.length ≥ maxPages` rejection does not exist in the
code. -/
theorem claim_C5_counterexample :
    taskC5.settings.maxPages = some 1 ∧ taskC5.processed = 1 ∧ taskC5.queue.length = 1
    ∧ (TaskState.addToQueue (fun s => s) taskC5 (.str "https://example.com/b")).2 = true
    ∧ ((TaskState.addToQueue (fun s => s) taskC5 (.str "https://example.com/b")).1).queue.length
        = 2 :=
  ⟨rfl, rfl, rfl, rfl, rfl⟩

/-- C5, amended: `addToQueue` returns false and leaves the task unchanged
exactly when the task is past Running (completing, finishing or finished) or
the normalized URL is already in `visited`; otherwise it appends the
normalized URL to both `queue` and `visited`, marks the task changed and
returns true.  There is no page-budget check. -/
theorem claim_C5 (normalizeUrl : String → String) (t : TaskState) (url : JSValue) :
    ((t.isCompletionInProgress || t.isFinishing || t.isFinished) = true →
      TaskState.addToQueue normalizeUrl t url = (t, false))
    ∧ ((t.isCompletionInProgress || t.isFinishing || t.isFinished) = false →
        jsSetHas t.visited (jsNormalize normalizeUrl url) = true →
        TaskState.addToQueue normalizeUrl t url = (t, false))
    ∧ ((t.isCompletionInProgress || t.isFinishing || t.isFinished) = false →
        jsSetHas t.visited (jsNormalize normalizeUrl url) = false →
        TaskState.addToQueue normalizeUrl t url =
          ({ t with visited := t.visited ++ [jsNormalize normalizeUrl url],
                    queue := t.queue ++ [jsNormalize normalizeUrl url],
                    hasUnsavedChanges := true }, true)) := by
  refine ⟨fun h => ?_, fun h hv => ?_, fun h hv => ?_⟩
  · simp [TaskState.addToQueue, h]
  · simp [TaskState.addToQueue, h, hv]
  · simp [TaskState.addToQueue, TaskState.markChanged, h, hv]

/-- C5, witness: the amended theorem applied to `taskC5` and a fresh URL. -/
theorem claim_C5_witness :
    TaskState.addToQueue (fun s => s) taskC5 (.str "https://example.com/b") =
      ({ taskC5 with
          visited := taskC5.visited ++ [JSValue.str "https://example.com/b"],
          queue := taskC5.queue ++ [JSValue.str "https://example.com/b"],
          hasUnsavedChanges := true }, true) :=
  (claim_C5 (fun s => s) taskC5 (.str "https://example.com/b")).2.2 rfl rfl

/-- C10: for every settings object whose `concurrency`, `maxPages` and
`delay` fields are numbers or missing, the constructor's clamping yields
`1 ≤ concurrency ≤ 15`, `1 ≤ maxPages ≤ 1000` and `delay ≥ 0`; out-of-range
values are clamped, never rejected. -/
theorem claim_C10 (normalizeUrl extractDomain : String → String)
    (taskId startingUrl settings : JSValue)
    (hc : isNumericOrMissing (jsGetD settings "concurrency") = true)
    (hm : isNumericOrMissing (jsGetD settings "maxPages") = true)
    (hd : isNumericOrMissing (jsGetD settings "delay") = true) :
    ((TaskState.create normalizeUrl extractDomain taskId startingUrl
        settings).settings.concurrency).isSome = true
    ∧ 1 ≤ ((TaskState.create normalizeUrl extractDomain taskId startingUrl
        settings).settings.concurrency).getD 0
    ∧ ((TaskState.create normalizeUrl extractDomain taskId startingUrl
        settings).settings.concurrency).getD 0 ≤ 15
    ∧ ((TaskState.create normalizeUrl extractDomain taskId startingUrl
        settings).settings.maxPages).isSome = true
    ∧ 1 ≤ ((TaskState.create normalizeUrl extractDomain taskId startingUrl
        settings).settings.maxPages).getD 0
    ∧ ((TaskState.create normalizeUrl extractDomain taskId startingUrl
        settings).settings.maxPages).getD 0 ≤ 1000
    ∧ ((TaskState.create normalizeUrl extractDomain taskId startingUrl
        settings).settings.delay).isSome = true
    ∧ 0 ≤ ((TaskState.create normalizeUrl extractDomain taskId startingUrl
        settings).settings.delay).getD 0 := by
  obtain ⟨c, hc1, hc2, hc3⟩ :=
    clampBounds (jsGetD settings "concurrency") hc CONFIG_DEFAULTS_CONCURRENCY
      CONFIG_LIMITS_MIN_CONCURRENCY CONFIG_LIMITS_MAX_CONCURRENCY
      (by norm_num [CONFIG_LIMITS_MIN_CONCURRENCY, CONFIG_LIMITS_MAX_CONCURRENCY])
  obtain ⟨m, hm1, hm2, hm3⟩ :=
    clampBounds (jsGetD settings "maxPages") hm CONFIG_DEFAULTS_MAX_PAGES
      CONFIG_LIMITS_MIN_PAGES CONFIG_LIMITS_MAX_PAGES
      (by norm_num [CONFIG_LIMITS_MIN_PAGES, CONFIG_LIMITS_MAX_PAGES])
  obtain ⟨e, he1, he2⟩ :=
    clampLowerBound (jsGetD settings "delay") hd CONFIG_DEFAULTS_DELAY
  simp only [TaskState.create, hc1, hm1, he1]
  simp [CONFIG_LIMITS_MIN_CONCURRENCY, CONFIG_LIMITS_MAX_CONCURRENCY,
    CONFIG_LIMITS_MIN_PAGES, CONFIG_LIMITS_MAX_PAGES] at hc2 hc3 hm2 hm3
  simp_all

/-- C10, witness: oversized concurrency, negative maxPages and negative
delay all land inside the claimed bounds. -/
theorem claim_C10_witness :
    ((TaskState.create (fun s => s) (fun s => s) (.num 1) (.str "https://example.com/a")
        (.obj [("concurrency", JSValue.num 99), ("maxPages", JSValue.num (-3)),
               ("delay", JSValue.num (-7))])).settings.concurrency).isSome = true
    ∧ 1 ≤ ((TaskState.create (fun s => s) (fun s => s) (.num 1) (.str "https://example.com/a")
        (.obj [("concurrency", JSValue.num 99), ("maxPages", JSValue.num (-3)),
               ("delay", JSValue.num (-7))])).settings.concurrency).getD 0 := by
  have h := claim_C10 (fun s => s) (fun s => s) (.num 1) (.str "https://example.com/a")
    (.obj [("concurrency", JSValue.num 99), ("maxPages", JSValue.num (-3)),
           ("delay", JSValue.num (-7))]) rfl rfl rfl
  exact ⟨h.1, h.2.1⟩

/-- A claimed task (`isFinishing` or `isFinished` set) is rejected by
`markAsFinishing` unchanged, at the first guard. -/
theorem markAsFinishing_of_claimed {t : TaskState} (h : (t.isFinishing || t.isFinished) = true) :
    TaskState.markAsFinishing t = (t, false) := by
  unfold TaskState.markAsFinishing
  rcases Bool.or_eq_true_iff.mp h with h1 | h1 <;> simp [h1]

/-- After a successful `markAsFinishing` the task is claimed. -/
theorem markAsFinishing_true_claimed {t : TaskState}
    (h : (TaskState.markAsFinishing t).2 = true) :
    ((TaskState.markAsFinishing t).1.isFinishing
      || (TaskState.markAsFinishing t).1.isFinished) = true := by
  simp only [TaskState.markAsFinishing] at h ⊢
  split_ifs at h ⊢ <;> simp_all

/-- No operation of the system un-claims a claimed task: `markAsFinished`
keeps `isFinished` set and nothing else clears either flag. -/
theorem stepTask_claimed {normalizeUrl : String → String} {t : TaskState} (op : TOp)
    (h : (t.isFinishing || t.isFinished) = true) :
    ((stepTask normalizeUrl t op).isFinishing || (stepTask normalizeUrl t op).isFinished)
      = true := by
  cases op <;>
    simp only [stepTask, TaskState.addToQueue, TaskState.getNextUrl, TaskState.markAsFinished,
      TaskState.markChanged, markAsFinishing_of_claimed h]
  case addToQueue url => split_ifs <;> simp_all
  case getNextUrl =>
    rcases hq : t.queue with _ | ⟨u, rest⟩ <;> simp <;> (try split_ifs) <;> simp_all
  case markAsFinishing => exact h
  case markAsFinished => simp
  case setAbort => exact h
  case dispatch => split_ifs <;> simp_all
  case dispatchLegacy =>
    split_ifs with hcs
    · rcases hq : t.queue with _ | ⟨u, rest⟩ <;>
        simp only [TaskState.getNextUrl, hq, TaskState.markChanged] <;> (try split_ifs) <;>
        simp_all
    · exact h
  case completeFetch => split_ifs <;> simp_all

/-- From a claimed task no later `markAsFinishing` invocation ever returns
true, whatever operations are interleaved. -/
theorem trueCount_of_claimed {normalizeUrl : String → String} {t : TaskState}
    (h : (t.isFinishing || t.isFinished) = true) (ops : List TOp) :
    trueCount normalizeUrl t ops = 0 := by
  induction ops generalizing t with
  | nil => rfl
  | cons op rest ih =>
    cases op <;> simp only [trueCount]
    case markAsFinishing =>
      rw [markAsFinishing_of_claimed h]
      simpa using ih h
    all_goals exact ih (stepTask_claimed _ h)

/-- Along any run, at most one `markAsFinishing` invocation returns true. -/
theorem trueCount_le_one (normalizeUrl : String → String) (t : TaskState) (ops : List TOp) :
    trueCount normalizeUrl t ops ≤ 1 := by
  induction ops generalizing t with
  | nil => simp [trueCount]
  | cons op rest ih =>
    cases op <;> simp only [trueCount]
    case markAsFinishing =>
      by_cases hb : (TaskState.markAsFinishing t).2 = true
      · simp [hb, trueCount_of_claimed (markAsFinishing_true_claimed hb)]
      · simp only [Bool.not_eq_true] at hb
        simp only [hb, if_false]
        simpa using ih _
    all_goals exact ih _

/-- C2: across any sequence of the system's operations on a task, at most
one `markAsFinishing` invocation returns true; once an invocation has
returned true every later one returns false (including after
`markAsFinished`); and an invocation returns false whenever fetches are in
progress or neither completion condition (page budget met, queue empty)
holds. -/
theorem claim_C2 (normalizeUrl : String → String) (t : TaskState) (ops : List TOp) :
    trueCount normalizeUrl t ops ≤ 1
    ∧ ((TaskState.markAsFinishing t).2 = true →
        trueCount normalizeUrl (TaskState.markAsFinishing t).1 ops = 0)
    ∧ (0 < t.inProgress → (TaskState.markAsFinishing t).2 = false)
    ∧ (jsGeNum t.processed t.settings.maxPages = false → t.queue ≠ [] →
        (TaskState.markAsFinishing t).2 = false) := by
  refine ⟨trueCount_le_one normalizeUrl t ops,
    fun hb => trueCount_of_claimed (markAsFinishing_true_claimed hb) ops,
    fun hp => ?_, fun hm hq => ?_⟩
  · simp only [TaskState.markAsFinishing]
    split_ifs <;> simp_all <;> omega
  · have hq0 : (t.queue.length == 0) = false := by
      simp [List.length_eq_zero, hq]
    simp only [TaskState.markAsFinishing]
    split_ifs <;> simp_all

/-- C2, witness: on a completable task the first invocation succeeds, and
from the claimed state two further invocations (around a `markAsFinished`)
all return false; an in-flight fetch also forces false. -/
theorem claim_C2_witness :
    trueCount (fun s => s) taskC2 [TOp.markAsFinishing, TOp.markAsFinished, TOp.markAsFinishing]
        ≤ 1
    ∧ trueCount (fun s => s) (TaskState.markAsFinishing taskC2).1
        [TOp.markAsFinishing, TOp.markAsFinished, TOp.markAsFinishing] = 0
    ∧ (TaskState.markAsFinishing { taskC2 with inProgress := 1 }).2 = false := by
  have h := claim_C2 (fun s => s) taskC2
    [TOp.markAsFinishing, TOp.markAsFinished, TOp.markAsFinishing]
  have h2 := claim_C2 (fun s => s) { taskC2 with inProgress := 1 } []
  exact ⟨h.1, h.2.1 rfl, h2.2.2.1 (by norm_num)⟩

/-- `markAsFinishing` never changes the settings or the counters. -/
theorem markAsFinishing_fst_fields (t : TaskState) :
    (TaskState.markAsFinishing t).1.settings = t.settings
    ∧ (TaskState.markAsFinishing t).1.processed = t.processed
    ∧ (TaskState.markAsFinishing t).1.inProgress = t.inProgress := by
  simp only [TaskState.markAsFinishing]
  split_ifs <;> simp

/-- `getNextUrl` never changes the settings or the counters. -/
theorem getNextUrl_fst_fields (t : TaskState) :
    (TaskState.getNextUrl t).1.settings = t.settings
    ∧ (TaskState.getNextUrl t).1.processed = t.processed
    ∧ (TaskState.getNextUrl t).1.inProgress = t.inProgress := by
  simp only [TaskState.getNextUrl]
  rcases t.queue with _ | ⟨u, rest⟩ <;> simp [TaskState.markChanged] <;> split_ifs <;> simp

/-- Every operation preserves the page-budget invariant: dispatches are
gated on `processed + inProgress < maxPages` and a completion moves one unit
from `inProgress` to `processed`. -/
theorem stepTask_maxInv {normalizeUrl : String → String} {t : TaskState} (op : TOp)
    (h : maxInv t) : maxInv (stepTask normalizeUrl t op) := by
  obtain ⟨m, h1, h2, h3⟩ := h
  cases op <;>
    simp only [stepTask, TaskState.addToQueue, TaskState.markAsFinished, TaskState.markChanged]
  case addToQueue url => split_ifs <;> exact ⟨m, h1, h2, h3⟩
  case getNextUrl =>
    obtain ⟨f1, f2, f3⟩ := getNextUrl_fst_fields t
    exact ⟨m, by rw [f1, h1], by rw [f3]; exact h2, by rw [f2, f3]; exact h3⟩
  case markAsFinishing =>
    obtain ⟨f1, f2, f3⟩ := markAsFinishing_fst_fields t
    exact ⟨m, by rw [f1, h1], by rw [f3]; exact h2, by rw [f2, f3]; exact h3⟩
  case markAsFinished => exact ⟨m, h1, h2, h3⟩
  case setAbort => exact ⟨m, h1, h2, h3⟩
  case dispatch =>
    split_ifs with hc
    · simp only [canProcess, Bool.and_eq_true] at hc
      have hlt := hc.2
      rw [h1] at hlt
      simp only [jsLtNum, decide_eq_true_eq] at hlt
      refine ⟨m, h1, ?_, ?_⟩
      · show (0 : Int) ≤ t.inProgress + 1
        omega
      · show t.processed + (t.inProgress + 1) ≤ m
        omega
    · exact ⟨m, h1, h2, h3⟩
  case dispatchLegacy =>
    split_ifs with hc
    · simp only [TaskState.canSchedule, Bool.and_eq_true] at hc
      have hlt := hc.2
      rw [h1] at hlt
      simp only [jsLtNum, decide_eq_true_eq] at hlt
      obtain ⟨f1, f2, f3⟩ := getNextUrl_fst_fields t
      refine ⟨m, ?_, ?_, ?_⟩
      · show (TaskState.getNextUrl t).1.settings.maxPages = some m
        rw [f1, h1]
      · show (0 : Int) ≤ (TaskState.getNextUrl t).1.inProgress + 1
        rw [f3]; omega
      · show (TaskState.getNextUrl t).1.processed + ((TaskState.getNextUrl t).1.inProgress + 1)
            ≤ m
        rw [f2, f3]; omega
    · exact ⟨m, h1, h2, h3⟩
  case completeFetch =>
    split_ifs with hcp
    · refine ⟨m, h1, ?_, ?_⟩
      · show (0 : Int) ≤ t.inProgress - 1
        omega
      · show t.processed + 1 + (t.inProgress - 1) ≤ m
        omega
    · exact ⟨m, h1, h2, h3⟩

/-- The page-budget invariant is preserved along any run. -/
theorem runOps_maxInv (normalizeUrl : String → String) (t : TaskState) (ops : List TOp)
    (h : maxInv t) : maxInv (runOps normalizeUrl t ops) := by
  induction ops generalizing t with
  | nil => exact h
  | cons op rest ih => exact ih _ (stepTask_maxInv op h)

/-- C6: starting from a freshly constructed task (with a numeric-or-missing
`maxPages` setting), after every sequence of system operations — enqueues,
dispatches gated by `canProcess`/`canSchedule`, fetch completions and the
rest — the state satisfies `processed + inProgress ≤ settings.maxPages`. -/
theorem claim_C6 (normalizeUrl extractDomain : String → String)
    (taskId startingUrl settings : JSValue)
    (hm : isNumericOrMissing (jsGetD settings "maxPages") = true) (ops : List TOp) :
    (runOps normalizeUrl
        (TaskState.create normalizeUrl extractDomain taskId startingUrl settings) ops).processed
      + (runOps normalizeUrl
          (TaskState.create normalizeUrl extractDomain taskId startingUrl settings)
          ops).inProgress
      ≤ ((runOps normalizeUrl
            (TaskState.create normalizeUrl extractDomain taskId startingUrl settings)
            ops).settings.maxPages).getD 0 := by
  obtain ⟨m, hm1, hm2, hm3⟩ :=
    clampBounds (jsGetD settings "maxPages") hm CONFIG_DEFAULTS_MAX_PAGES
      CONFIG_LIMITS_MIN_PAGES CONFIG_LIMITS_MAX_PAGES
      (by norm_num [CONFIG_LIMITS_MIN_PAGES, CONFIG_LIMITS_MAX_PAGES])
  simp [CONFIG_LIMITS_MIN_PAGES, CONFIG_LIMITS_MAX_PAGES] at hm2 hm3
  have base : maxInv (TaskState.create normalizeUrl extractDomain taskId startingUrl settings) := by
    refine ⟨m, ?_, ?_, ?_⟩
    · show jsMinNum (jsMaxNum (jsOrNumber (jsGetD settings "maxPages")
        CONFIG_DEFAULTS_MAX_PAGES) CONFIG_LIMITS_MIN_PAGES) CONFIG_LIMITS_MAX_PAGES = some m
      exact hm1
    · show (0 : Int) ≤ 0
      omega
    · show (0 : Int) + 0 ≤ m
      omega
  obtain ⟨m', e1, e2, e3⟩ := runOps_maxInv normalizeUrl _ ops base
  rw [e1]
  simpa using e3

/-- C6, witness: a `maxPages = 2` task driven through three dispatches and
two completions stays within its page budget. -/
theorem claim_C6_witness :
    (runOps (fun s => s) (TaskState.create (fun s => s) (fun s => s) (.num 1)
        (.str "https://example.com/a") (.obj [("maxPages", JSValue.num 2)]))
        [TOp.dispatch, TOp.completeFetch, TOp.dispatch, TOp.dispatch, TOp.completeFetch]).processed
      + (runOps (fun s => s) (TaskState.create (fun s => s) (fun s => s) (.num 1)
        (.str "https://example.com/a") (.obj [("maxPages", JSValue.num 2)]))
        [TOp.dispatch, TOp.completeFetch, TOp.dispatch, TOp.dispatch,
         TOp.completeFetch]).inProgress
      ≤ ((runOps (fun s => s) (TaskState.create (fun s => s) (fun s => s) (.num 1)
        (.str "https://example.com/a") (.obj [("maxPages", JSValue.num 2)]))
        [TOp.dispatch, TOp.completeFetch, TOp.dispatch, TOp.dispatch,
         TOp.completeFetch]).settings.maxPages).getD 0 :=
  claim_C6 (fun s => s) (fun s => s) (.num 1) (.str "https://example.com/a")
    (.obj [("maxPages", JSValue.num 2)]) rfl
    [TOp.dispatch, TOp.completeFetch, TOp.dispatch, TOp.dispatch, TOp.completeFetch]

/-- C7, counterexample: a URL already present in the high lane is accepted
again into the normal lane — `enqueue` deduplicates only within the target
lane, not across all three lanes as claimed. -/
theorem claim_C7_counterexample :
    pqC7.high = [⟨"https://example.com/a", 0⟩]
    ∧ (PriorityQueue.enqueue pqC7 ⟨"https://example.com/a", 1⟩ "normal").normal
        = [⟨"https://example.com/a", 1⟩] := ⟨rfl, rfl⟩

/-- C7, amended: `dequeue` drains `high` before `normal` before `low`,
returning `null` only when all lanes are empty, and each lane is FIFO (head
out, tail in).  `enqueue` rejects an item unchanged exactly when its URL is
already in the target lane (a URL may coexist in different lanes), otherwise
appending it to that lane's tail. -/
theorem claim_C7 (pq : PriorityQueue) (item : QItem) (priority : String)
    (x : QItem) (xs : List QItem) :
    (pq.high = x :: xs → PriorityQueue.dequeue pq = (some x, { pq with high := xs }))
    ∧ (pq.high = [] → pq.normal = x :: xs →
        PriorityQueue.dequeue pq = (some x, { pq with normal := xs }))
    ∧ (pq.high = [] → pq.normal = [] → pq.low = x :: xs →
        PriorityQueue.dequeue pq = (some x, { pq with low := xs }))
    ∧ (pq.high = [] → pq.normal = [] → pq.low = [] →
        PriorityQueue.dequeue pq = (none, pq))
    ∧ (((PriorityQueue.getQueue pq priority).find?
          (fun existingItem => existingItem.url == item.url)).isSome = true →
        PriorityQueue.enqueue pq item priority = pq)
    ∧ (((PriorityQueue.getQueue pq priority).find?
          (fun existingItem => existingItem.url == item.url)).isSome = false →
        PriorityQueue.enqueue pq item priority =
          PriorityQueue.setQueue pq priority (PriorityQueue.getQueue pq priority ++ [item])) := by
  refine ⟨fun h1 => ?_, fun h1 h2 => ?_, fun h1 h2 h3 => ?_, fun h1 h2 h3 => ?_,
    fun h => ?_, fun h => ?_⟩
  · simp [PriorityQueue.dequeue, h1]
  · simp [PriorityQueue.dequeue, h1, h2]
  · simp [PriorityQueue.dequeue, h1, h2, h3]
  · simp [PriorityQueue.dequeue, h1, h2, h3]
  · simp [PriorityQueue.enqueue, h]
  · simp [PriorityQueue.enqueue, h]

/-- C7, witness: dequeuing the one-item high lane empties the queue, and a
fresh URL is appended to the tail of its target lane. -/
theorem claim_C7_witness :
    PriorityQueue.dequeue pqC7 = (some ⟨"https://example.com/a", 0⟩, PriorityQueue.empty)
    ∧ PriorityQueue.enqueue pqC7 ⟨"https://example.com/b", 3⟩ "high" =
        PriorityQueue.setQueue pqC7 "high" (pqC7.high ++ [⟨"https://example.com/b", 3⟩]) := by
  have h := claim_C7 pqC7 ⟨"https://example.com/b", 3⟩ "high" ⟨"https://example.com/a", 0⟩ []
  exact ⟨h.1 rfl, h.2.2.2.2.2 rfl⟩

/-- C3: the compressor corrupts strings with characters at or above code
point 256.  On the two-unit string `"aā"` (code units 97 and 257),
`compress` emits the units unchanged, and `decompress` misreads unit 257 as
a dictionary code, reconstructing `"aaa"` — so
`decompress(compress(s)) ≠ s`, against the spec's round-trip requirement for
all strings including unicode. -/
theorem claim_C3 :
    SimpleCompressor.compress [97, 257] = [97, 257]
    ∧ SimpleCompressor.decompress (SimpleCompressor.compress [97, 257]) = [97, 97, 97]
    ∧ [97, 97, 97] ≠ ([97, 257] : List Nat) := ⟨rfl, rfl, by decide⟩

/-- `Map.set` on an absent key appends the binding. -/
theorem alSet_of_lookup_none {β : Type} {l : List (String × β)} {k : String}
    (h : alLookup l k = none) (v : β) : alSet l k v = l ++ [(k, v)] := by
  simp only [alLookup, Option.map_eq_none'] at h
  simp [alSet, h]

/-- Lookup of a binding appended behind an absent key finds it. -/
theorem alLookup_snoc_self {β : Type} {l : List (String × β)} {k : String}
    (h : alLookup l k = none) (v : β) : alLookup (l ++ [(k, v)]) k = some v := by
  induction l with
  | nil => simp [alLookup]
  | cons e rest ih =>
    simp only [alLookup, List.find?] at h ⊢
    cases he : (e.1 == k) with
    | true => simp [he] at h
    | false =>
      simp only [he] at h ⊢
      exact ih (by simpa [alLookup] using h)

/-- Appending a binding for another key does not change a lookup. -/
theorem alLookup_snoc_other {β : Type} (l : List (String × β)) {k k' : String}
    (h : ¬(k' = k)) (v : β) : alLookup (l ++ [(k, v)]) k' = alLookup l k' := by
  have hkk : (k == k') = false := by
    simp only [beq_eq_false_iff_ne, ne_eq]
    exact fun hh => h hh.symm
  induction l with
  | nil => simp [alLookup, List.find?, hkk]
  | cons e rest ih =>
    simp only [alLookup, List.find?] at ih ⊢
    cases he : (e.1 == k') with
    | true => simp [he]
    | false => simpa [he] using ih

/-- `Map.delete` removes the key. -/
theorem alLookup_alRemove_self {β : Type} (l : List (String × β)) (k : String) :
    alLookup (alRemove l k) k = none := by
  induction l with
  | nil => simp [alLookup, alRemove]
  | cons e rest ih =>
    simp only [alRemove, List.filter] at ih ⊢
    cases he : (e.1 == k) with
    | true => simpa [he] using ih
    | false => simpa [alLookup, List.find?, he] using ih

/-- `Map.delete` leaves other keys alone. -/
theorem alLookup_alRemove_other {β : Type} (l : List (String × β)) {k k' : String}
    (h : ¬(k' = k)) : alLookup (alRemove l k) k' = alLookup l k' := by
  induction l with
  | nil => simp [alLookup, alRemove]
  | cons e rest ih =>
    simp only [alRemove, List.filter] at ih ⊢
    by_cases hek : e.1 = k
    · have h1 : (e.1 == k) = true := by simp [hek]
      have h2 : (e.1 == k') = false := by
        rw [hek]
        simp only [beq_eq_false_iff_ne, ne_eq]
        exact fun hh => h hh.symm
      simp only [h1, Bool.not_true]
      simpa [alLookup, List.find?, h2] using ih
    · have h1 : (e.1 == k) = false := by simp [hek]
      simp only [h1, Bool.not_false]
      simp only [alLookup, List.find?] at ih ⊢
      cases he : (e.1 == k') with
      | true => simp [he]
      | false => simpa [he] using ih

/-- `getCachedResponse` only touches the response cache. -/
theorem getCachedResponse_pres (s : URLMState) (url : String) (now : Int) :
    (URLManager.getCachedResponse s url now).1.pendingRequests = s.pendingRequests
    ∧ (URLManager.getCachedResponse s url now).1.enableDeduplication = s.enableDeduplication
    ∧ (URLManager.getCachedResponse s url now).1.enableCaching = s.enableCaching := by
  simp only [URLManager.getCachedResponse]
  rcases hl : lruGet s.responseCache url with ⟨_ | e, c⟩ <;> simp [hl] <;> split_ifs <;> simp

/-- With deduplication enabled and the url already pending, `scrapeURL`
returns the registered pending promise and leaves the pending map as is. -/
theorem scrapeURL_pending_some {s : URLMState} {url : String} {pid0 : Nat}
    (hd : s.enableDeduplication = true)
    (h : alLookup s.pendingRequests url = some pid0) (skipCache : Bool) (now : Int) (pid : Nat) :
    (URLManager.scrapeURL s url skipCache now pid).2 = .awaitPending pid0
    ∧ (URLManager.scrapeURL s url skipCache now pid).1.pendingRequests = s.pendingRequests
    ∧ (URLManager.scrapeURL s url skipCache now pid).1.enableDeduplication = true := by
  simp [URLManager.scrapeURL, hd, h]

/-- With deduplication enabled and the url not pending, `scrapeURL` either
serves a cache hit without touching the pending map, or starts the fetch and
registers the new promise. -/
theorem scrapeURL_pending_none {s : URLMState} {url : String}
    (hd : s.enableDeduplication = true)
    (h : alLookup s.pendingRequests url = none) (skipCache : Bool) (now : Int) (pid : Nat) :
    ((∃ d, (URLManager.scrapeURL s url skipCache now pid).2 = .cacheHit d)
      ∧ (URLManager.scrapeURL s url skipCache now pid).1.pendingRequests = s.pendingRequests
      ∧ (URLManager.scrapeURL s url skipCache now pid).1.enableDeduplication = true)
    ∨ ((URLManager.scrapeURL s url skipCache now pid).2 = .fetchStarted pid
      ∧ (URLManager.scrapeURL s url skipCache now pid).1.pendingRequests
          = s.pendingRequests ++ [(url, pid)]
      ∧ (URLManager.scrapeURL s url skipCache now pid).1.enableDeduplication = true) := by
  unfold URLManager.scrapeURL
  set s0 : URLMState := { s with statsTotal := s.statsTotal + 1 } with hs0
  have hd0 : s0.enableDeduplication = true := hd
  have hp0 : s0.pendingRequests = s.pendingRequests := rfl
  simp only [hd, hd0, Bool.not_true, Bool.false_eq_true, if_false, hp0, h]
  by_cases hc : (s0.enableCaching && !skipCache) = true
  · simp only [hc, if_true]
    rcases hg : URLManager.getCachedResponse s0 url now with ⟨s1, _ | e⟩
    · have hp : s1.pendingRequests = s.pendingRequests := by
        have := (getCachedResponse_pres s0 url now).1
        rw [hg] at this
        exact this
      have hd1 : s1.enableDeduplication = true := by
        have := (getCachedResponse_pres s0 url now).2.1
        rw [hg] at this
        rw [this]
        exact hd0
      right
      simp only [hg, URLManager.executeScrape]
      simp only [hd1, if_true]
      refine ⟨by trivial, ?_, by first | trivial | simp [hd1]⟩
      rw [hp]
      exact alSet_of_lookup_none h pid
    · left
      have hp : s1.pendingRequests = s.pendingRequests := by
        have := (getCachedResponse_pres s0 url now).1
        rw [hg] at this
        exact this
      have hd1 : s1.enableDeduplication = true := by
        have := (getCachedResponse_pres s0 url now).2.1
        rw [hg] at this
        rw [this]
        exact hd0
      simp [hg, hp, hd1]
  · simp only [hc, if_false]
    right
    simp only [URLManager.executeScrape, hd, hd0, if_true]
    refine ⟨by trivial, ?_, by first | trivial | simp [hd]⟩
    exact alSet_of_lookup_none h pid

/-- With deduplication enabled, settling a fetch deletes its pending
entry. -/
theorem settleFetch_pending {s : URLMState} (hd : s.enableDeduplication = true)
    (url : String) (result : Option Nat) (now : Int) :
    (URLManager.settleFetch s url result now).pendingRequests
      = alRemove s.pendingRequests url := by
  simp only [URLManager.settleFetch, URLManager.cacheResponse]
  cases result <;> split_ifs <;> simp_all

/-- Settling preserves the deduplication flag. -/
theorem settleFetch_dedup {s : URLMState} (hd : s.enableDeduplication = true)
    (url : String) (result : Option Nat) (now : Int) :
    (URLManager.settleFetch s url result now).enableDeduplication = true := by
  simp only [URLManager.settleFetch, URLManager.cacheResponse]
  cases result <;> split_ifs <;> simp_all

/-- Every dedup-layer event preserves the invariant. -/
theorem ustep_dedupInv {ts : URLMTrace} (e : UEvent) (h : dedupInv ts) :
    dedupInv (ustep ts e) := by
  obtain ⟨hd, hnd, hmem⟩ := h
  cases e with
  | resolve url skipCache now pid =>
    cases hl : alLookup ts.um.pendingRequests url with
    | some pid0 =>
      obtain ⟨h1, h2, h3⟩ := scrapeURL_pending_some hd hl skipCache now pid
      refine ⟨?_, ?_, ?_⟩ <;> simp only [ustep, h1] <;>
        first
          | exact h3
          | exact hnd
          | (intro u; rw [h2]; exact hmem u)
    | none =>
      rcases scrapeURL_pending_none hd hl skipCache now pid with ⟨⟨d, h1⟩, h2, h3⟩ | ⟨h1, h2, h3⟩
      · refine ⟨?_, ?_, ?_⟩ <;> simp only [ustep, h1] <;>
          first
            | exact h3
            | exact hnd
            | (intro u; rw [h2]; exact hmem u)
      · have hnotmem : ¬ url ∈ ts.outstanding := by
          intro hm
          have := (hmem url).mpr hm
          rw [hl] at this
          simp at this
        refine ⟨?_, ?_, ?_⟩ <;> simp only [ustep, h1]
        · exact h3
        · exact List.Nodup.cons hnotmem hnd
        · intro u
          rw [h2]
          by_cases hu : u = url
          · subst hu
            simp [alLookup_snoc_self hl, List.mem_cons]
          · rw [alLookup_snoc_other _ hu]
            simp only [List.mem_cons]
            rw [hmem u]
            simp [hu]
  | settle url result now =>
    by_cases hm : url ∈ ts.outstanding
    · refine ⟨?_, ?_, ?_⟩ <;> simp only [ustep, hm, if_true]
      · exact settleFetch_dedup hd url result now
      · exact hnd.erase url
      · intro u
        rw [settleFetch_pending hd url result now]
        by_cases hu : u = url
        · subst hu
          simp only [alLookup_alRemove_self]
          constructor
          · intro hfalse
            simp at hfalse
          · intro hin
            exact absurd hin (hnd.not_mem_erase)
        · rw [alLookup_alRemove_other _ hu]
          rw [hmem u]
          exact (List.mem_erase_of_ne hu).symm
    · refine ⟨?_, ?_, ?_⟩ <;> simp only [ustep, hm, if_false] <;>
        first
          | exact hd
          | exact hnd
          | exact hmem

/-- The invariant is preserved along any event sequence. -/
theorem runUEvents_dedupInv (ts : URLMTrace) (events : List UEvent) (h : dedupInv ts) :
    dedupInv (runUEvents ts events) := by
  induction events generalizing ts with
  | nil => exact h
  | cons e rest ih => exact ih _ (ustep_dedupInv e h)

/-- C1: with deduplication enabled (the default, and the page scraper's
configuration), after any sequence of resolve and settle events no URL ever
has two fetch invocations outstanding; and whenever a resolve call arrives
for a URL whose fetch is in flight (present in `pendingRequests`), the call
returns that same pending promise and starts no second fetch. -/
theorem claim_C1 (options : URLMOptions) (hd : options.enableDeduplication ≠ some false)
    (events : List UEvent) (url : String) (pid0 : Nat) (skipCache : Bool) (now : Int)
    (pid : Nat) :
    (∀ u, (runUEvents (initTrace options) events).outstanding.count u ≤ 1)
    ∧ (alLookup (runUEvents (initTrace options) events).um.pendingRequests url = some pid0 →
        (URLManager.scrapeURL (runUEvents (initTrace options) events).um url skipCache now pid).2
            = .awaitPending pid0
        ∧ (ustep (runUEvents (initTrace options) events)
              (.resolve url skipCache now pid)).outstanding
            = (runUEvents (initTrace options) events).outstanding) := by
  have hinit : dedupInv (initTrace options) := by
    refine ⟨?_, List.nodup_nil, ?_⟩
    · rcases ho : options.enableDeduplication with _ | b
      · simp [initTrace, URLManager.init, ho]
      · cases b
        · exact absurd ho hd
        · simp [initTrace, URLManager.init, ho]
    · intro u
      simp [initTrace, URLManager.init, alLookup]
  obtain ⟨hd', hnd, hmem⟩ := runUEvents_dedupInv (initTrace options) events hinit
  refine ⟨fun u => List.nodup_iff_count_le_one.mp hnd u, fun hl => ?_⟩
  obtain ⟨h1, h2, h3⟩ := scrapeURL_pending_some hd' hl skipCache now pid
  exact ⟨h1, by simp only [ustep, h1]⟩

/-- C1, witness: after one resolve leaves a fetch in flight, a second
resolve for the same URL is deduplicated onto the pending promise and leaves
the outstanding fetches untouched. -/
theorem claim_C1_witness :
    (∀ u, (runUEvents (initTrace c1opts) c1events).outstanding.count u ≤ 1)
    ∧ ((URLManager.scrapeURL (runUEvents (initTrace c1opts) c1events).um
          "https://example.com/a" false 1 8).2 = .awaitPending 7
      ∧ (ustep (runUEvents (initTrace c1opts) c1events)
            (.resolve "https://example.com/a" false 1 8)).outstanding
          = (runUEvents (initTrace c1opts) c1events).outstanding) := by
  have h := claim_C1 c1opts (by decide) c1events "https://example.com/a" 7 false 1 8
  exact ⟨h.1, h.2 rfl⟩

/-- Filtering entries with distinct keys by membership of the key in a list
bounds the result by that list's length. -/
theorem filter_contains_length_le (entries : List (String × JSValue)) (L : List String)
    (h : (entries.map Prod.fst).Nodup) :
    (entries.filter (fun e => L.contains e.1)).length ≤ L.length := by
  have hsub : ((entries.filter (fun e => L.contains e.1)).map Prod.fst).Sublist
      (entries.map Prod.fst) := (List.filter_sublist entries).map Prod.fst
  have hnd : ((entries.filter (fun e => L.contains e.1)).map Prod.fst).Nodup := h.sublist hsub
  have hmem : ∀ u ∈ (entries.filter (fun e => L.contains e.1)).map Prod.fst, u ∈ L := by
    intro u hu
    obtain ⟨e, he, rfl⟩ := List.mem_map.mp hu
    have := List.of_mem_filter he
    simpa using this
  calc (entries.filter (fun e => L.contains e.1)).length
      = ((entries.filter (fun e => L.contains e.1)).map Prod.fst).length :=
        (List.length_map _ _).symm
    _ = ((entries.filter (fun e => L.contains e.1)).map Prod.fst).toFinset.card :=
        (List.toFinset_card_of_nodup hnd).symm
    _ ≤ L.toFinset.card := by
        apply Finset.card_le_card
        intro u hu
        rw [List.mem_toFinset] at hu ⊢
        exact hmem u hu
    _ ≤ L.length := L.toFinset_card_le

/-- C8: when the reported storage usage exceeds 80% (which covers the 80–90%
tier and the 92% scenario), `saveTaskState` writes a snapshot whose content
entries are exactly the stored entries filtered to the
`max(50, (100 - percentage) * 5)` most-recently-touched urls — hence at most
that many entries, a bound shrinking as usage grows — while the in-memory
task keeps its `contentMap` unchanged. -/
theorem claim_C8 (t : TaskState) (percentage : Int) (h80 : 80 < percentage)
    (hnd : (t.contentMap.map Prod.fst).Nodup) :
    (TaskManager.saveTaskState t percentage).data.contentMap
        = t.contentMap.filter (fun e =>
            (topAccessedUrls t (max 50 ((100 - percentage) * 5)).toNat).contains e.1)
    ∧ (TaskManager.saveTaskState t percentage).data.contentMap.length
        ≤ (max 50 ((100 - percentage) * 5)).toNat
    ∧ (TaskManager.saveTaskState t percentage).task.contentMap = t.contentMap := by
  have hgt : percentage > 80 := h80
  refine ⟨?_, ?_, ?_⟩
  · simp [TaskManager.saveTaskState, hgt, TaskState.toJSON]
  · have heq : (TaskManager.saveTaskState t percentage).data.contentMap
        = t.contentMap.filter (fun e =>
            (topAccessedUrls t (max 50 ((100 - percentage) * 5)).toNat).contains e.1) := by
      simp [TaskManager.saveTaskState, hgt, TaskState.toJSON]
    rw [heq]
    calc (t.contentMap.filter (fun e =>
            (topAccessedUrls t (max 50 ((100 - percentage) * 5)).toNat).contains e.1)).length
        ≤ (topAccessedUrls t (max 50 ((100 - percentage) * 5)).toNat).length :=
          filter_contains_length_le _ _ hnd
      _ ≤ (max 50 ((100 - percentage) * 5)).toNat := by
          simp [topAccessedUrls]
  · simp only [TaskManager.saveTaskState, hgt, if_true]
    split_ifs <;> simp

/-- C8, witness: the theorem at the 92% scenario on a two-entry task. -/
theorem claim_C8_witness :
    (TaskManager.saveTaskState taskC8 (92 : Int)).data.contentMap
        = taskC8.contentMap.filter (fun e =>
            (topAccessedUrls taskC8 (max 50 ((100 - (92 : Int)) * 5)).toNat).contains e.1)
    ∧ (TaskManager.saveTaskState taskC8 (92 : Int)).data.contentMap.length
        ≤ (max 50 ((100 - (92 : Int)) * 5)).toNat
    ∧ (TaskManager.saveTaskState taskC8 (92 : Int)).task.contentMap = taskC8.contentMap :=
  claim_C8 taskC8 (92 : Int) (by norm_num) (by decide)

/-- C9, counterexample: a stored `null` snapshot is malformed
(`fromJSON` cannot restore it), yet `loadTaskState` returns null with the
corrupted entry still in the store — the claimed unconditional removal does
not happen for falsy stored values, which never reach the restore path. -/
theorem claim_C9_counterexample :
    TaskState.fromJSON (fun s => s) (fun s => s) 0 JSValue.null = none
    ∧ TaskManager.loadTaskState (fun s => s) (fun s => s) 0 [("task_1", JSValue.null)] (.num 1)
        = ([("task_1", JSValue.null)], none) := ⟨rfl, rfl⟩

/-- C9, amended: loading never throws; a falsy stored value (null, false, 0,
empty string) or a missing entry yields null with the store untouched; a
truthy stored value that `fromJSON` cannot restore is removed from the store
and null is returned; a restorable one is returned with the store
untouched. -/
theorem claim_C9 (normalizeUrl extractDomain : String → String) (now : Int)
    (store : List (String × JSValue)) (taskId : JSValue) :
    (jsTruthy ((alLookup store (CONFIG_STORAGE_TASK_KEY ++ jsToStr taskId)).getD .undefined)
        = false →
      TaskManager.loadTaskState normalizeUrl extractDomain now store taskId = (store, none))
    ∧ (∀ v, alLookup store (CONFIG_STORAGE_TASK_KEY ++ jsToStr taskId) = some v →
        jsTruthy v = true →
        TaskState.fromJSON normalizeUrl extractDomain now v = none →
        TaskManager.loadTaskState normalizeUrl extractDomain now store taskId
          = (alRemove store (CONFIG_STORAGE_TASK_KEY ++ jsToStr taskId), none))
    ∧ (∀ v task, alLookup store (CONFIG_STORAGE_TASK_KEY ++ jsToStr taskId) = some v →
        jsTruthy v = true →
        TaskState.fromJSON normalizeUrl extractDomain now v = some task →
        TaskManager.loadTaskState normalizeUrl extractDomain now store taskId
          = (store, some task)) := by
  refine ⟨fun hf => ?_, fun v hv ht hn => ?_, fun v task hv ht hs => ?_⟩
  · simp [TaskManager.loadTaskState, hf]
  · simp [TaskManager.loadTaskState, hv, ht, hn]
  · simp [TaskManager.loadTaskState, hv, ht, hs]

/-- C9, witness: a truthy but unrestorable stored value (the number 5) is
removed from the store and the load returns null. -/
theorem claim_C9_witness :
    TaskState.fromJSON (fun s => s) (fun s => s) 0 (JSValue.num 5) = none
    ∧ TaskManager.loadTaskState (fun s => s) (fun s => s) 0 [("task_1", JSValue.num 5)] (.num 1)
        = ([], none) := by
  have h := claim_C9 (fun s => s) (fun s => s) 0 [("task_1", JSValue.num 5)] (.num 1)
  exact ⟨rfl, h.2.1 (JSValue.num 5) rfl rfl rfl⟩
